import Mathlib

/-!
Shallow embedding of `convert.py`, a single-file pipeline that converts a
DNS velocity field table to the coordinate/normalization convention of the
Pele solver, and proofs about the claims made by its specification.

Modelling conventions:
* machine floats are modelled by exact rationals (ℚ);
* `np.sqrt` / the `%.18e` float formatter / Python's `float()` parser are
  abstracted as explicit function parameters (`sqrtFn`, `fmt`, `parse`),
  since their bit-level behaviour is irrelevant to the claims;
* Python exceptions are modelled by `Except PyErr`;
* a text file is modelled as its list of lines (`List String`).
-/

attribute [local semireducible] Rat.add Rat.mul Rat.inv Rat.sub

/-- Decidable equality of `Except` values, used to evaluate the pipeline
on concrete inputs. -/
instance {ε : Type} {α : Type} [DecidableEq ε] [DecidableEq α] :
    DecidableEq (Except ε α) := fun a b =>
  match a, b with
  | .error e, .error f => decidable_of_iff (e = f) (by simp)
  | .ok x, .ok y => decidable_of_iff (x = y) (by simp)
  | .error _, .ok _ => isFalse (by simp)
  | .ok _, .error _ => isFalse (by simp)

/-- Kinds of Python exceptions the script can raise. -/
inductive PyErr where
  | zeroDivisionError
  | valueError
  | indexError
  | parseError
deriving DecidableEq

/-- One row of the pandas DataFrame `dat`: columns x, y, z, u, v, w. -/
structure Row where
  x : ℚ
  y : ℚ
  z : ℚ
  u : ℚ
  v : ℚ
  w : ℚ
deriving DecidableEq

/-- Helper for `containsSub`: does `needle` occur as a contiguous
subsequence of the haystack? (Python's `needle in line`.) -/
def containsSubAux (needle : List Char) : List Char → Bool
  | [] => needle.isEmpty
  | c :: cs => needle.isPrefixOf (c :: cs) || containsSubAux needle cs

/-- Python's substring test `needle in hay`. -/
def containsSub (needle hay : String) : Bool :=
  containsSubAux needle.data hay.data

/-- Is `c` one of the whitespace characters Python's `str.split()`
splits on (restricted to the ones occurring in text files)? -/
def isWS (c : Char) : Bool :=
  c = ' ' || c = '\t' || c = '\n' || c = '\r'

/-- Helper for `pySplit`: accumulates the current token (reversed). -/
def pySplitAux : List Char → List Char → List (List Char)
  | [], acc => if acc.isEmpty then [] else [acc.reverse]
  | c :: cs, acc =>
    if isWS c then
      if acc.isEmpty then pySplitAux cs [] else acc.reverse :: pySplitAux cs []
    else pySplitAux cs (c :: acc)

/-- Python's `line.split()`: split on runs of whitespace, dropping empty
tokens. -/
def pySplit (s : String) : List String :=
  (pySplitAux s.data []).map String.mk

/-- `get_viscosity` (convert.py lines 36-41): scan the lines; on the first
line containing the substring `"viscosity"`, return `float(line.split()[-1])`
(an empty split raises IndexError, an unparsable token raises ValueError);
if no line matches, return 0. `parse` models Python's `float()`. -/
def getViscosity (parse : String → Option ℚ) : List String → Except PyErr ℚ
  | [] => .ok 0
  | line :: rest =>
    if containsSub "viscosity" line then
      match (pySplit line).getLast? with
      | none => .error .indexError
      | some tok =>
        match parse tok with
        | some q => .ok q
        | none => .error .valueError
    else getViscosity parse rest

/-- Helper for `get_skiprows_num`, carrying the 1-based line counter. -/
def getSkiprowsAux (k : Nat) : List String → Nat
  | [] => 0
  | line :: rest =>
    if containsSub "exporting field in real space" line then k
    else getSkiprowsAux (k + 1) rest

/-- `get_skiprows_num` (convert.py lines 44-49): 1-based index of the first
line containing `"exporting field in real space"`, else 0. -/
def getSkiprowsNum (lines : List String) : Nat :=
  getSkiprowsAux 1 lines

/-- Parse one data line into a row, as `pd.read_csv` with
`delim_whitespace=True` and `names=['x','y','z','u','v','w']` does:
blank lines are skipped (`none`), a line must otherwise have exactly six
parsable tokens. -/
def parseRow (parse : String → Option ℚ) (line : String) :
    Except PyErr (Option Row) :=
  match pySplit line with
  | [] => .ok none
  | [a, b, c, d, e, f] =>
    match parse a, parse b, parse c, parse d, parse e, parse f with
    | some xa, some xb, some xc, some xd, some xe, some xf =>
      .ok (some ⟨xa, xb, xc, xd, xe, xf⟩)
    | _, _, _, _, _, _ => .error .parseError
  | _ => .error .parseError

/-- The Table Loader (convert.py lines 65-69): parse every line after the
skipped header into a row, in file order. -/
def loadTable (parse : String → Option ℚ) : List String → Except PyErr (List Row)
  | [] => .ok []
  | line :: rest =>
    match parseRow parse line with
    | .error e => .error e
    | .ok r? =>
      match loadTable parse rest with
      | .error e => .error e
      | .ok tail =>
        match r? with
        | none => .ok tail
        | some r => .ok (r :: tail)

/-- Python float division `a / b`: raises ZeroDivisionError on `b == 0`. -/
def pyDiv (a b : ℚ) : Except PyErr ℚ :=
  if b = 0 then .error .zeroDivisionError else .ok (a / b)

/-- `dat.rename(columns={'x': 'y', 'y': 'x'})` (convert.py line 79): the
column labelled x now holds the old y values and vice versa. -/
def renameXY (r : Row) : Row :=
  { r with x := r.y, y := r.x }

/-- `np.diff`: adjacent differences of a 1D array. -/
def npDiff : List ℚ → List ℚ
  | a :: b :: rest => (b - a) :: npDiff (b :: rest)
  | _ => []

/-- `np.max`: maximum of a 1D array; raises ValueError on an empty array. -/
def npMax (l : List ℚ) : Except PyErr ℚ :=
  match l.max? with
  | none => .error .valueError
  | some m => .ok m

/-- `dx = np.max(np.diff(dat['x']))` (convert.py line 83), computed on the
post-rename table, i.e. on the post-swap x column. -/
def dxOf (dat : List Row) : Except PyErr ℚ :=
  npMax (npDiff ((dat.map renameXY).map (fun r => r.x)))

/-- The cell-center shift (convert.py lines 85-87): add `0.5 * dx` to each
of x, y, z. -/
def shiftRow (dx : ℚ) (r : Row) : Row :=
  { r with x := r.x + 1 / 2 * dx, y := r.y + 1 / 2 * dx, z := r.z + 1 / 2 * dx }

/-- The ascending lexicographic order on the sort key `(z, y, x)` used by
`dat.sort_values(by=['z', 'y', 'x'])` (convert.py line 90): z primary
(slowest), then y, then x. -/
def keyLEP (a b : Row) : Prop :=
  a.z < b.z ∨ (a.z = b.z ∧ (a.y < b.y ∨ (a.y = b.y ∧ a.x ≤ b.x)))

instance : DecidableRel keyLEP := fun a b => by
  unfold keyLEP
  infer_instance

/-- The sort key tuple of a row. -/
def keyOf (r : Row) : ℚ × ℚ × ℚ :=
  (r.z, r.y, r.x)

/-- `dat.sort_values(by=['z', 'y', 'x'])` (convert.py line 90): pandas
sorts on multiple columns via `np.lexsort`, an indirect *stable* sort, so
the model is a stable sort by the lexicographic key order `keyLEP`. -/
def sortRows (l : List Row) : List Row :=
  List.insertionSort keyLEP l

/-- The whole Coordinate Transformer (convert.py lines 79-90) applied with
spacing `dx`: rename x/y, shift all coordinates by `0.5 * dx`, stable-sort
by (z, y, x). -/
def coordTransform (dat : List Row) (dx : ℚ) : List Row :=
  sortRows ((dat.map renameXY).map (shiftRow dx))

/-- `np.mean` of a 1D array (junk value 0 on an empty array). -/
def meanQ (l : List ℚ) : ℚ :=
  l.sum / (l.length : ℚ)

/-- The quantity under the square root in
`urms = np.sqrt(np.mean(u**2 + v**2 + w**2) / 3)` (convert.py line 93). -/
def rmsMeanSq (dat : List Row) : ℚ :=
  meanQ (dat.map (fun r => r.u ^ 2 + r.v ^ 2 + r.w ^ 2)) / 3

/-- `u2 = np.mean(dat['u']**2)` (convert.py line 96). -/
def u2Of (dat : List Row) : ℚ :=
  meanQ (dat.map (fun r => r.u ^ 2))

/-- The normalization (convert.py lines 107-109): divide u, v, w in place
by `c` (the computed urms). (Named `normalizeVel` because Mathlib already
takes the name `normalize`.) -/
def normalizeVel (c : ℚ) (dat : List Row) : List Row :=
  dat.map (fun r => { r with u := r.u / c, v := r.v / c, w := r.w / c })

/-- Helper for `npGradient1D`: walks the array keeping the previous value
`p`; emits the centered difference while at least two values remain, and
the trailing one-sided difference at the last value. -/
def gradMid (dx : ℚ) : ℚ → List ℚ → List ℚ
  | p, c :: d :: rest => (d - p) / (2 * dx) :: gradMid dx c (d :: rest)
  | p, [c] => [(c - p) / dx]
  | _, [] => []

/-- `np.gradient(f, dx)` on a 1D array with uniform spacing and the default
`edge_order=1`: one-sided difference at the first and last entries,
centered differences in the interior. (numpy raises for arrays of fewer
than two values; such arrays are ruled out by hypotheses where relevant.) -/
def npGradient1D (dx : ℚ) (f : List ℚ) : List ℚ :=
  match f with
  | f0 :: f1 :: rest => (f1 - f0) / dx :: gradMid dx f0 (f1 :: rest)
  | _ => []

/-- One axis-0 line of the Fortran-order (column-major, first index
fastest) reshape of the flat array `u` into an `(n, n, n)` cube:
element `(i, j, k)` of the cube is `u[i + n*j + n*n*k]`. -/
def lineF (u : List ℚ) (n j k : Nat) : List ℚ :=
  (List.range n).map (fun i => u.getD (i + n * j + n * n * k) 0)

/-- Sum of squared entries of a 1D array. -/
def sqSum (l : List ℚ) : ℚ :=
  (l.map (fun g => g ^ 2)).sum

/-- `dudx2` (convert.py lines 97-101): mean of the squared `np.gradient`
along axis 0 (spacing `dx`) of the u column reshaped to an `(n, n, n)`
cube in Fortran order. The mean divides by the element count `n ^ 3`. -/
def dudx2 (u : List ℚ) (n : Nat) (dx : ℚ) : ℚ :=
  (((List.range n).map (fun k =>
    ((List.range n).map (fun j =>
      sqSum (npGradient1D dx (lineF u n j k)))).sum)).sum) / ((n : ℚ) ^ 3)

/-- Modelled from the spec's words for comparison with `dudx2`: the value
of the finite-difference gradient at position `i` of an axis-0 line of
length `n`: centered differences at interior points, one-sided differences
at the two boundary points. -/
def centralDiffAt (dx : ℚ) (f : Nat → ℚ) (n i : Nat) : ℚ :=
  if i = 0 then (f 1 - f 0) / dx
  else if i = n - 1 then (f (n - 1) - f (n - 2)) / dx
  else (f (i + 1) - f (i - 1)) / (2 * dx)

/-- Modelled from the spec's words for comparison with `dudx2`: the mean
over all `(i, j, k)` of the squared finite-difference gradient along the
first axis of the column-major reshape of `u`. -/
def dudx2Spec (u : List ℚ) (n : Nat) (dx : ℚ) : ℚ :=
  (((List.range n).map (fun k =>
    ((List.range n).map (fun j =>
      ((List.range n).map (fun i =>
        centralDiffAt dx (fun m => u.getD (m + n * j + n * n * k) 0) n i ^ 2)).sum)).sum)).sum)
    / ((n : ℚ) ^ 3)

/-- The Physical Scale Calculator core (convert.py lines 96-102):
`u2 = np.mean(u**2)`, `dudx2` as above, and
`lambda0 = np.sqrt(u2 / dudx2)`, with `np.sqrt` modelled by the abstract
`sqrtFn`. Returns `(u2, dudx2, lambda0)`. -/
def scaleCalc (sqrtFn : ℚ → ℚ) (dat : List Row) (n : Nat) (dx : ℚ) : ℚ × ℚ × ℚ :=
  let u2 := meanQ (dat.map (fun r => r.u ^ 2))
  let d2 := dudx2 (dat.map (fun r => r.u)) n dx
  (u2, d2, sqrtFn (u2 / d2))

/-- One data line written by `dat.to_csv` (convert.py lines 124-127): the
six column values in the order x, y, z, u, v, w, each formatted by `fmt`
(modelling `float_format='%.18e'`), joined by commas. -/
def rowLine (fmt : ℚ → String) (r : Row) : String :=
  fmt r.x ++ "," ++ fmt r.y ++ "," ++ fmt r.z ++ "," ++ fmt r.u ++ "," ++
    fmt r.v ++ "," ++ fmt r.w

/-- The lines of the output file written by
`dat.to_csv(oname, columns=['x','y','z','u','v','w'],
float_format='%.18e', index=False)` (convert.py lines 124-127): the call
passes `index=False` but leaves `header` at its pandas default `True`, so
the first line is the column-header line `"x,y,z,u,v,w"`, followed by one
data line per row in table order. -/
def writeLines (fmt : ℚ → String) (dat : List Row) : List String :=
  "x,y,z,u,v,w" :: dat.map (rowLine fmt)

/-- `resolution = 128` (convert.py line 62). -/
def resolution : Nat := 128

/-- The derived scalars the script computes and reports. -/
structure Scalars where
  mu : ℚ
  re : ℚ
  dx : ℚ
  urms : ℚ
  u2 : ℚ
  dudx2 : ℚ
  lambda0 : ℚ
  k0 : ℚ
  reLambda : ℚ
deriving DecidableEq

/-- The whole conversion run (convert.py lines 62-127), in source order:
load the table (after skipping the header), read the viscosity, compute
`Re = 1. / mu` (Python float division: raises ZeroDivisionError when
`mu == 0`), rename x/y, compute `dx`, shift to cell centers, stable-sort
by (z, y, x), compute urms and the Taylor-scale quantities (`np.reshape`
raises when the row count is not `resolution ^ 3`), normalize by urms, and
produce the output file lines together with all derived scalars.
Divisions performed by numpy (k0, Re_lambda, the normalization) do not
raise in Python and are modelled by total ℚ division. -/
def runConvert (parse : String → Option ℚ) (sqrtFn : ℚ → ℚ) (fmt : ℚ → String)
    (lines : List String) : Except PyErr (List String × Scalars) :=
  match loadTable parse (lines.drop (getSkiprowsNum lines)) with
  | .error e => .error e
  | .ok dat0 =>
    match getViscosity parse lines with
    | .error e => .error e
    | .ok mu =>
      match pyDiv 1 mu with
      | .error e => .error e
      | .ok re =>
        let dat1 := dat0.map renameXY
        match npMax (npDiff (dat1.map (fun r => r.x))) with
        | .error e => .error e
        | .ok dx =>
          let dat2 := sortRows (dat1.map (shiftRow dx))
          let urms := sqrtFn (rmsMeanSq dat2)
          if dat2.length = resolution ^ 3 then
            let s := scaleCalc sqrtFn dat2 resolution dx
            let lam := s.2.2
            let out := normalizeVel urms dat2
            .ok (writeLines fmt out,
              ⟨mu, re, dx, urms, s.1, s.2.1, lam, 2 / lam, urms * lam / mu⟩)
          else .error .valueError

/-- The program entry point as seen from the command line: argparse
accepts the boolean `--plot`/`-p` flag (convert.py lines 24-28) and binds
it to `args.plot`, which no later statement reads; the conversion then
runs unconditionally. -/
def runProgram (plot : Bool) (parse : String → Option ℚ) (sqrtFn : ℚ → ℚ)
    (fmt : ℚ → String) (lines : List String) :
    Except PyErr (List String × Scalars) :=
  runConvert parse sqrtFn fmt lines

open List

/-! ## Order facts about the sort key -/

theorem keyLEP_trans (a b c : Row) (h1 : keyLEP a b) (h2 : keyLEP b c) :
    keyLEP a c := by
  unfold keyLEP at h1 h2 ⊢
  rcases h1 with h1 | ⟨e1, h1⟩ <;> rcases h2 with h2 | ⟨e2, h2⟩
  · exact Or.inl (h1.trans h2)
  · exact Or.inl (by rw [← e2]; exact h1)
  · exact Or.inl (by rw [e1]; exact h2)
  · refine Or.inr ⟨e1.trans e2, ?_⟩
    rcases h1 with h1 | ⟨f1, h1⟩ <;> rcases h2 with h2 | ⟨f2, h2⟩
    · exact Or.inl (h1.trans h2)
    · exact Or.inl (by rw [← f2]; exact h1)
    · exact Or.inl (by rw [f1]; exact h2)
    · exact Or.inr ⟨f1.trans f2, h1.trans h2⟩

theorem keyLEP_total (a b : Row) : keyLEP a b ∨ keyLEP b a := by
  unfold keyLEP
  rcases lt_trichotomy a.z b.z with hz | hz | hz
  · exact Or.inl (Or.inl hz)
  · rcases lt_trichotomy a.y b.y with hy | hy | hy
    · exact Or.inl (Or.inr ⟨hz, Or.inl hy⟩)
    · rcases le_total a.x b.x with hx | hx
      · exact Or.inl (Or.inr ⟨hz, Or.inr ⟨hy, hx⟩⟩)
      · exact Or.inr (Or.inr ⟨hz.symm, Or.inr ⟨hy.symm, hx⟩⟩)
    · exact Or.inr (Or.inr ⟨hz.symm, Or.inl hy⟩)
  · exact Or.inr (Or.inl hz)

instance : IsTrans Row keyLEP :=
  ⟨keyLEP_trans⟩

instance : IsTotal Row keyLEP :=
  ⟨keyLEP_total⟩

/-- A row with the same key as another is `keyLEP`-below it. -/
theorem keyLEP_of_keyOf_eq {a b : Row} (h : keyOf a = keyOf b) : keyLEP a b := by
  unfold keyOf at h
  obtain ⟨hz, hy, hx⟩ : a.z = b.z ∧ a.y = b.y ∧ a.x = b.x := by
    simpa [Prod.ext_iff] using h
  exact Or.inr ⟨hz, Or.inr ⟨hy, le_of_eq hx⟩⟩

/-- The sorted table is a permutation of its input. -/
theorem sortRows_perm (l : List Row) : sortRows l ~ l :=
  List.perm_insertionSort keyLEP l

/-- The sorted table is pairwise ordered by the key order. -/
theorem sortRows_pairwise (l : List Row) : (sortRows l).Pairwise keyLEP :=
  List.sorted_insertionSort keyLEP l

/-! ## Claim theorems -/

/-- C1: for every row of the table after the Coordinate Transformer runs,
its x value is the source row's y value plus `0.5 * dx`, its y value is
the source row's x value plus `0.5 * dx`, its z value is the source row's
z value plus `0.5 * dx` (and u, v, w identify the source row, which
travels through the sort), where `dx` is the maximum adjacent difference
of the post-swap x column. -/
theorem coordTransform_shift_swap (dat : List Row) (dx : ℚ) (r : Row)
    (hdx : dxOf dat = .ok dx) (hr : r ∈ coordTransform dat dx) :
    ∃ s ∈ dat, r.x = s.y + 1 / 2 * dx ∧ r.y = s.x + 1 / 2 * dx ∧
      r.z = s.z + 1 / 2 * dx ∧ r.u = s.u ∧ r.v = s.v ∧ r.w = s.w := by
  have hmem : r ∈ (dat.map renameXY).map (shiftRow dx) :=
    (sortRows_perm _).mem_iff.mp hr
  rw [List.map_map, List.mem_map] at hmem
  obtain ⟨s, hs, hrs⟩ := hmem
  refine ⟨s, hs, ?_⟩
  subst hrs
  simp [shiftRow, renameXY]

/-- C2: after the Coordinate Transformer's sort, each pair of consecutive
rows has non-decreasing key tuples (z, y, x) in the lexicographic order
with z primary (slowest) and x fastest. -/
theorem coordTransform_sorted_keys (dat : List Row) (dx : ℚ) :
    List.Chain' keyLEP (coordTransform dat dx) :=
  (sortRows_pairwise _).chain'

/-- C6: the Coordinate Transformer's sort is stable: the subsequence of
rows carrying any fixed key tuple (z, y, x) is exactly the same, in the
same order, before and after sorting. -/
theorem sortRows_stable_filter (l : List Row) (k : ℚ × ℚ × ℚ) :
    (sortRows l).filter (fun r => decide (keyOf r = k)) =
      l.filter (fun r => decide (keyOf r = k)) := by
  have hkey : ∀ a ∈ l.filter (fun r => decide (keyOf r = k)), keyOf a = k := by
    intro a ha
    simpa using List.of_mem_filter ha
  have hpw : (l.filter (fun r => decide (keyOf r = k))).Pairwise keyLEP :=
    List.pairwise_of_forall_mem_list fun a ha b hb =>
      keyLEP_of_keyOf_eq ((hkey a ha).trans (hkey b hb).symm)
  have hsub : l.filter (fun r => decide (keyOf r = k)) <+ sortRows l :=
    List.sublist_insertionSort hpw (List.filter_sublist l)
  have hsub2 : l.filter (fun r => decide (keyOf r = k)) <+
      (sortRows l).filter (fun r => decide (keyOf r = k)) := by
    have := hsub.filter (fun r => decide (keyOf r = k))
    rwa [List.filter_filter, show
      (fun r => decide (keyOf r = k) && decide (keyOf r = k)) =
        (fun r => decide (keyOf r = k)) from funext fun r => Bool.and_self _] at this
  have hlen : ((sortRows l).filter (fun r => decide (keyOf r = k))).length =
      (l.filter (fun r => decide (keyOf r = k))).length :=
    ((sortRows_perm l).filter _).length_eq
  exact (hsub2.eq_of_length hlen.symm).symm

/-- C9: the Coordinate Transformer preserves the table's cardinality (and
its column set, which is fixed by the `Row` type); the output is a
permutation (row order change only) of the renamed-and-shifted rows, and
renaming/shifting touches only x, y, z: every row's u, v, w values are
unchanged and travel with their row. -/
theorem coordTransform_frame (dat : List Row) (dx : ℚ) :
    (coordTransform dat dx).length = dat.length ∧
    coordTransform dat dx ~ (dat.map renameXY).map (shiftRow dx) ∧
    ∀ s : Row, (shiftRow dx (renameXY s)).u = s.u ∧
      (shiftRow dx (renameXY s)).v = s.v ∧ (shiftRow dx (renameXY s)).w = s.w := by
  refine ⟨?_, sortRows_perm _, fun s => ⟨rfl, rfl, rfl⟩⟩
  rw [show coordTransform dat dx = sortRows ((dat.map renameXY).map (shiftRow dx)) from rfl,
    (sortRows_perm _).length_eq, List.length_map, List.length_map]

/-- Sum of squared velocity magnitudes after normalization: dividing u, v,
w by `c` divides the sum of `u^2 + v^2 + w^2` by `c^2`. -/
theorem normalizeVel_sumSq (c : ℚ) (dat : List Row) :
    ((normalizeVel c dat).map (fun r => r.u ^ 2 + r.v ^ 2 + r.w ^ 2)).sum =
      (dat.map (fun r => r.u ^ 2 + r.v ^ 2 + r.w ^ 2)).sum / c ^ 2 := by
  induction dat with
  | nil => simp [normalizeVel]
  | cons r t ih =>
    simp only [normalizeVel, List.map_cons, List.sum_cons] at ih ⊢
    rw [ih]
    ring

/-- C3: if `urms > 0` squares to the mean of `(u^2+v^2+w^2)/3` (i.e. it is
the square root the code takes), then after dividing u, v, w by it,
recomputing the mean of `(u^2+v^2+w^2)/3` over the output table yields
exactly 1 in exact arithmetic. -/
theorem normalizeVel_rms_one (dat : List Row) (c : ℚ) (hne : dat ≠ [])
    (hc : 0 < c) (hcsq : c ^ 2 = rmsMeanSq dat) :
    rmsMeanSq (normalizeVel c dat) = 1 := by
  have hlen0 : ((dat.length : ℚ)) ≠ 0 := by
    exact_mod_cast Nat.cast_ne_zero.mpr (List.length_pos.mpr hne).ne'
  have hc0 : c ≠ 0 := ne_of_gt hc
  unfold rmsMeanSq meanQ at hcsq ⊢
  rw [normalizeVel_sumSq]
  simp only [normalizeVel, List.length_map] at hcsq ⊢
  field_simp at hcsq ⊢
  linarith [hcsq]

/-- Witness for C3 at the one-row table with u = v = w = 1 and c = 1. -/
theorem normalizeVel_rms_one_witness :
    ([(⟨0, 0, 0, 1, 1, 1⟩ : Row)] ≠ []) ∧ (0 : ℚ) < 1 ∧
      (1 : ℚ) ^ 2 = rmsMeanSq [⟨0, 0, 0, 1, 1, 1⟩] ∧
      rmsMeanSq (normalizeVel 1 [⟨0, 0, 0, 1, 1, 1⟩]) = 1 :=
  ⟨by decide, by decide, by decide,
    normalizeVel_rms_one [⟨0, 0, 0, 1, 1, 1⟩] 1 (by decide) (by decide) (by decide)⟩

/-- C8: `get_viscosity` returns the last whitespace-separated token of the
first line containing the substring "viscosity", parsed as a float; and if
no line contains that substring, it returns 0. -/
theorem getViscosity_spec (parse : String → Option ℚ) (pre post : List String)
    (line tok : String) (q : ℚ)
    (hpre : ∀ l ∈ pre, containsSub "viscosity" l = false)
    (hline : containsSub "viscosity" line = true)
    (htok : (pySplit line).getLast? = some tok)
    (hq : parse tok = some q) :
    getViscosity parse (pre ++ line :: post) = .ok q ∧
      ∀ lines : List String, (∀ l ∈ lines, containsSub "viscosity" l = false) →
        getViscosity parse lines = .ok 0 := by
  constructor
  · induction pre with
    | nil => simp [getViscosity, hline, htok, hq]
    | cons a t ih =>
      have ha := hpre a (List.mem_cons_self a t)
      simp only [List.cons_append, getViscosity, ha, Bool.false_eq_true,
        if_false]
      exact ih fun l hl => hpre l (List.mem_cons_of_mem a hl)
  · intro lines
    induction lines with
    | nil => intro _; rfl
    | cons a t ih =>
      intro h
      have ha := h a (List.mem_cons_self a t)
      simp only [getViscosity, ha, Bool.false_eq_true, if_false]
      exact ih fun l hl => h l (List.mem_cons_of_mem a hl)

/-- Witness for C8 on a three-line synthetic header whose second line is
"kinematic viscosity 0.005". -/
theorem getViscosity_spec_witness :
    (∀ l ∈ ["# header"], containsSub "viscosity" l = false) ∧
      containsSub "viscosity" "kinematic viscosity 0.005" = true ∧
      (pySplit "kinematic viscosity 0.005").getLast? = some "0.005" ∧
      (fun s => if s = "0.005" then some ((1 : ℚ) / 200) else none) "0.005" =
        some ((1 : ℚ) / 200) ∧
      (getViscosity (fun s => if s = "0.005" then some ((1 : ℚ) / 200) else none)
          (["# header"] ++ "kinematic viscosity 0.005" :: ["1 2 3"]) =
        .ok ((1 : ℚ) / 200) ∧
      ∀ lines : List String, (∀ l ∈ lines, containsSub "viscosity" l = false) →
        getViscosity (fun s => if s = "0.005" then some ((1 : ℚ) / 200) else none)
          lines = .ok 0) :=
  ⟨by decide, by decide, by decide, by decide,
    getViscosity_spec _ ["# header"] ["1 2 3"] "kinematic viscosity 0.005"
      "0.005" ((1 : ℚ) / 200) (by decide) (by decide) (by decide) (by decide)⟩

/-- C10: the `--plot`/`-p` flag is parsed but never read, so two runs on
the same input file, one with the flag and one without, produce identical
output-file content and identical derived scalars. -/
theorem plot_flag_no_effect (parse : String → Option ℚ) (sqrtFn : ℚ → ℚ)
    (fmt : ℚ → String) (lines : List String) :
    runProgram true parse sqrtFn fmt lines =
      runProgram false parse sqrtFn fmt lines :=
  rfl

/-! ## Gradient lemmas (C4) -/

theorem gradMid_length (dx : ℚ) : ∀ (p : ℚ) (l : List ℚ),
    (gradMid dx p l).length = l.length
  | _, [] => rfl
  | _, [_] => rfl
  | p, c :: d :: rest => by
    simp only [gradMid, List.length_cons]
    rw [gradMid_length dx c (d :: rest)]
    simp

theorem gradMid_getD (dx : ℚ) : ∀ (l : List ℚ) (p : ℚ) (i : Nat), i < l.length →
    (gradMid dx p l).getD i 0 =
      if i + 1 < l.length then (l.getD (i + 1) 0 - (p :: l).getD i 0) / (2 * dx)
      else (l.getD i 0 - (p :: l).getD i 0) / dx
  | [], _, i, h => by simp at h
  | [c], p, 0, _ => by simp [gradMid]
  | [c], p, i + 1, h => by simp at h
  | c :: d :: rest, p, 0, _ => by
    simp [gradMid]
  | c :: d :: rest, p, i + 1, h => by
    have hi : i < (d :: rest).length := by
      simpa using Nat.lt_of_succ_lt_succ h
    have ih := gradMid_getD dx (d :: rest) c i hi
    simp only [gradMid, List.getD_cons_succ]
    rw [ih]
    rcases Nat.lt_or_ge (i + 1) (d :: rest).length with hc | hc
    · rw [if_pos hc, if_pos (by simp at hc ⊢; omega)]
      simp
    · rw [if_neg (by omega), if_neg (by simp at hc ⊢; omega)]

theorem npGradient1D_length (dx : ℚ) (f : List ℚ) (h : 2 ≤ f.length) :
    (npGradient1D dx f).length = f.length := by
  obtain ⟨f0, f1, rest, rfl⟩ : ∃ a b t, f = a :: b :: t := by
    match f, h with
    | a :: b :: t, _ => exact ⟨a, b, t, rfl⟩
  simp [npGradient1D, gradMid_length]

theorem npGradient1D_getD (dx : ℚ) (f : List ℚ) (h : 2 ≤ f.length)
    (i : Nat) (hi : i < f.length) :
    (npGradient1D dx f).getD i 0 =
      centralDiffAt dx (fun m => f.getD m 0) f.length i := by
  obtain ⟨f0, f1, rest, rfl⟩ : ∃ a b t, f = a :: b :: t := by
    match f, h with
    | a :: b :: t, _ => exact ⟨a, b, t, rfl⟩
  cases i with
  | zero => simp [npGradient1D, centralDiffAt]
  | succ i =>
    have hi' : i < (f1 :: rest).length := by
      simpa using Nat.lt_of_succ_lt_succ hi
    simp only [npGradient1D, List.getD_cons_succ]
    rw [gradMid_getD dx (f1 :: rest) f0 i hi']
    unfold centralDiffAt
    rw [if_neg (Nat.succ_ne_zero i)]
    simp only [List.length_cons] at hi hi' ⊢
    rcases Nat.lt_or_ge (i + 1) (rest.length + 1) with hc | hc
    · rw [if_pos (by omega), if_neg (by omega)]
      simp
    · have hieq : i = rest.length := by omega
      subst hieq
      rw [if_neg (by omega), if_pos (by omega)]
      simp [Nat.add_sub_cancel]

theorem getD_range_map (f : Nat → ℚ) (n m : Nat) (h : m < n) :
    ((List.range n).map f).getD m 0 = f m := by
  simp [List.getD_eq_getElem?_getD, List.getElem?_map, List.getElem?_range h]

theorem centralDiffAt_congr (dx : ℚ) (f g : Nat → ℚ) (n i : Nat)
    (h : 2 ≤ n) (hi : i < n) (hfg : ∀ m, m < n → f m = g m) :
    centralDiffAt dx f n i = centralDiffAt dx g n i := by
  unfold centralDiffAt
  split_ifs with h0 hL
  · rw [hfg 1 (by omega), hfg 0 (by omega)]
  · rw [hfg (n - 1) (by omega), hfg (n - 2) (by omega)]
  · rw [hfg (i + 1) (by omega), hfg (i - 1) (by omega)]

/-- `np.gradient` on an axis-0 line given by an index function agrees
pointwise with the spec's piecewise finite-difference formula. -/
theorem npGradient1D_range (dx : ℚ) (f : Nat → ℚ) (n : Nat) (h : 2 ≤ n) :
    npGradient1D dx ((List.range n).map f) =
      (List.range n).map (fun i => centralDiffAt dx f n i) := by
  have hlen : ((List.range n).map f).length = n := by simp
  have hlen2 : 2 ≤ ((List.range n).map f).length := by omega
  apply List.ext_getElem
  · rw [npGradient1D_length dx _ hlen2, hlen]
    simp
  · intro i h1 h2
    have hi : i < n := by simpa using h2
    have e1 : ∀ (l : List ℚ) (j : Nat) (hj : j < l.length), l[j] = l.getD j 0 := by
      intro l j hj
      simp [List.getD_eq_getElem?_getD, List.getElem?_eq_getElem hj]
    rw [e1 _ i h1, e1 _ i h2, npGradient1D_getD dx _ hlen2 i (by omega),
      getD_range_map _ _ _ hi, hlen]
    exact centralDiffAt_congr dx _ f n i h hi fun m hm => getD_range_map f n m hm

/-- The code's `dudx2` (mean of the squared `np.gradient` of the
Fortran-order reshape) equals the spec's description of it: the mean of
the squared piecewise finite-difference formula over all `(i, j, k)`. -/
theorem dudx2_eq_spec (u : List ℚ) (n : Nat) (dx : ℚ) (h : 2 ≤ n) :
    dudx2 u n dx = dudx2Spec u n dx := by
  unfold dudx2 dudx2Spec
  congr 1
  apply congrArg List.sum
  apply List.map_congr_left
  intro k _
  apply congrArg List.sum
  apply List.map_congr_left
  intro j _
  rw [show lineF u n j k =
      (List.range n).map (fun i => u.getD (i + n * j + n * n * k) 0) from rfl,
    npGradient1D_range dx _ n h]
  unfold sqSum
  rw [List.map_map]
  rfl

/-- C4: the Physical Scale Calculator's `dudx2` is the mean of the squared
finite-difference gradient (centered in the interior, one-sided at the two
boundary points of each axis-0 line) of the u column reshaped into an
`(n, n, n)` cube in column-major (first-axis-fastest) order with uniform
spacing `dx`; its `u2` is the mean of `u^2` over all rows; and its
`lambda0` is `sqrtFn (u2 / dudx2)` (the square root of their quotient,
with `np.sqrt` modelled by `sqrtFn`). -/
theorem scaleCalc_dudx2_spec (sqrtFn : ℚ → ℚ) (dat : List Row) (n : Nat)
    (dx : ℚ) (h : 2 ≤ n) :
    (scaleCalc sqrtFn dat n dx).2.1 = dudx2Spec (dat.map (fun r => r.u)) n dx ∧
    (scaleCalc sqrtFn dat n dx).1 = u2Of dat ∧
    (scaleCalc sqrtFn dat n dx).2.2 =
      sqrtFn (u2Of dat / dudx2Spec (dat.map (fun r => r.u)) n dx) := by
  have hd := dudx2_eq_spec (dat.map (fun r => r.u)) n dx h
  refine ⟨hd, rfl, ?_⟩
  show sqrtFn (u2Of dat / dudx2 (dat.map (fun r => r.u)) n dx) = _
  rw [hd]

/-- Witness for C4 at n = 2, dx = 1, identity in place of sqrt, on an
eight-row table with u = 1..8. -/
theorem scaleCalc_dudx2_spec_witness :
    2 ≤ 2 ∧
    ((scaleCalc (fun q => q) [⟨0, 0, 0, 1, 0, 0⟩, ⟨0, 0, 0, 2, 0, 0⟩,
        ⟨0, 0, 0, 3, 0, 0⟩, ⟨0, 0, 0, 4, 0, 0⟩, ⟨0, 0, 0, 5, 0, 0⟩,
        ⟨0, 0, 0, 6, 0, 0⟩, ⟨0, 0, 0, 7, 0, 0⟩, ⟨0, 0, 0, 8, 0, 0⟩] 2 1).2.1 =
      dudx2Spec (([⟨0, 0, 0, 1, 0, 0⟩, ⟨0, 0, 0, 2, 0, 0⟩, ⟨0, 0, 0, 3, 0, 0⟩,
        ⟨0, 0, 0, 4, 0, 0⟩, ⟨0, 0, 0, 5, 0, 0⟩, ⟨0, 0, 0, 6, 0, 0⟩,
        ⟨0, 0, 0, 7, 0, 0⟩, ⟨0, 0, 0, 8, 0, 0⟩] : List Row).map (fun r => r.u)) 2 1 ∧
      (scaleCalc (fun q => q) [⟨0, 0, 0, 1, 0, 0⟩, ⟨0, 0, 0, 2, 0, 0⟩,
        ⟨0, 0, 0, 3, 0, 0⟩, ⟨0, 0, 0, 4, 0, 0⟩, ⟨0, 0, 0, 5, 0, 0⟩,
        ⟨0, 0, 0, 6, 0, 0⟩, ⟨0, 0, 0, 7, 0, 0⟩, ⟨0, 0, 0, 8, 0, 0⟩] 2 1).1 =
      u2Of [⟨0, 0, 0, 1, 0, 0⟩, ⟨0, 0, 0, 2, 0, 0⟩, ⟨0, 0, 0, 3, 0, 0⟩,
        ⟨0, 0, 0, 4, 0, 0⟩, ⟨0, 0, 0, 5, 0, 0⟩, ⟨0, 0, 0, 6, 0, 0⟩,
        ⟨0, 0, 0, 7, 0, 0⟩, ⟨0, 0, 0, 8, 0, 0⟩] ∧
      (scaleCalc (fun q => q) [⟨0, 0, 0, 1, 0, 0⟩, ⟨0, 0, 0, 2, 0, 0⟩,
        ⟨0, 0, 0, 3, 0, 0⟩, ⟨0, 0, 0, 4, 0, 0⟩, ⟨0, 0, 0, 5, 0, 0⟩,
        ⟨0, 0, 0, 6, 0, 0⟩, ⟨0, 0, 0, 7, 0, 0⟩, ⟨0, 0, 0, 8, 0, 0⟩] 2 1).2.2 =
      (fun q => q) (u2Of [⟨0, 0, 0, 1, 0, 0⟩, ⟨0, 0, 0, 2, 0, 0⟩,
        ⟨0, 0, 0, 3, 0, 0⟩, ⟨0, 0, 0, 4, 0, 0⟩, ⟨0, 0, 0, 5, 0, 0⟩,
        ⟨0, 0, 0, 6, 0, 0⟩, ⟨0, 0, 0, 7, 0, 0⟩, ⟨0, 0, 0, 8, 0, 0⟩] /
        dudx2Spec (([⟨0, 0, 0, 1, 0, 0⟩, ⟨0, 0, 0, 2, 0, 0⟩, ⟨0, 0, 0, 3, 0, 0⟩,
        ⟨0, 0, 0, 4, 0, 0⟩, ⟨0, 0, 0, 5, 0, 0⟩, ⟨0, 0, 0, 6, 0, 0⟩,
        ⟨0, 0, 0, 7, 0, 0⟩, ⟨0, 0, 0, 8, 0, 0⟩] : List Row).map (fun r => r.u)) 2 1)) :=
  ⟨by decide, scaleCalc_dudx2_spec (fun q => q) [⟨0, 0, 0, 1, 0, 0⟩,
    ⟨0, 0, 0, 2, 0, 0⟩, ⟨0, 0, 0, 3, 0, 0⟩, ⟨0, 0, 0, 4, 0, 0⟩,
    ⟨0, 0, 0, 5, 0, 0⟩, ⟨0, 0, 0, 6, 0, 0⟩, ⟨0, 0, 0, 7, 0, 0⟩,
    ⟨0, 0, 0, 8, 0, 0⟩] 2 1 (by decide)⟩

/-- Witness for C1 on a two-row table with dx = 1. -/
theorem coordTransform_shift_swap_witness :
    dxOf [(⟨0, 0, 0, 1, 1, 1⟩ : Row), ⟨0, 1, 0, 2, 2, 2⟩] = .ok 1 ∧
    (⟨1 / 2, 1 / 2, 1 / 2, 1, 1, 1⟩ : Row) ∈
      coordTransform [⟨0, 0, 0, 1, 1, 1⟩, ⟨0, 1, 0, 2, 2, 2⟩] 1 ∧
    ∃ s ∈ [(⟨0, 0, 0, 1, 1, 1⟩ : Row), ⟨0, 1, 0, 2, 2, 2⟩],
      (⟨1 / 2, 1 / 2, 1 / 2, 1, 1, 1⟩ : Row).x = s.y + 1 / 2 * 1 ∧
      (⟨1 / 2, 1 / 2, 1 / 2, 1, 1, 1⟩ : Row).y = s.x + 1 / 2 * 1 ∧
      (⟨1 / 2, 1 / 2, 1 / 2, 1, 1, 1⟩ : Row).z = s.z + 1 / 2 * 1 ∧
      (⟨1 / 2, 1 / 2, 1 / 2, 1, 1, 1⟩ : Row).u = s.u ∧
      (⟨1 / 2, 1 / 2, 1 / 2, 1, 1, 1⟩ : Row).v = s.v ∧
      (⟨1 / 2, 1 / 2, 1 / 2, 1, 1, 1⟩ : Row).w = s.w :=
  ⟨by decide, by decide,
    coordTransform_shift_swap [⟨0, 0, 0, 1, 1, 1⟩, ⟨0, 1, 0, 2, 2, 2⟩] 1
      ⟨1 / 2, 1 / 2, 1 / 2, 1, 1, 1⟩ (by decide) (by decide)⟩

/-- C5 counterexample: already on a one-row table, the first line the
Writer produces is the column-header line "x,y,z,u,v,w" (pandas `to_csv`
defaults to `header=True` and convert.py line 124 does not override it),
and that line is not the data row of the table — so the output file does
contain a column-header line, contradicting the claim. -/
theorem writeLines_header_cex :
    (writeLines (fun _ => "0") [⟨0, 0, 0, 0, 0, 0⟩]).head? = some "x,y,z,u,v,w" ∧
    "x,y,z,u,v,w" ≠ rowLine (fun _ => "0") ⟨0, 0, 0, 0, 0, 0⟩ := by
  constructor
  · rfl
  · decide

/-- C5 (amended): the output file consists of the column-header line
"x,y,z,u,v,w" as its first line, followed by exactly one comma-delimited
data row of the six columns (in the order x, y, z, u, v, w, each value
formatted by `fmt`, standing for `%.18e`) per grid point, in the
(z, y, x)-major sorted order of the normalized table. -/
theorem writeLines_amended (fmt : ℚ → String) (dat : List Row) (dx c : ℚ) :
    writeLines fmt (normalizeVel c (coordTransform dat dx)) =
      "x,y,z,u,v,w" :: (normalizeVel c (coordTransform dat dx)).map (rowLine fmt) ∧
    (writeLines fmt (normalizeVel c (coordTransform dat dx))).length =
      dat.length + 1 ∧
    List.Chain' keyLEP (normalizeVel c (coordTransform dat dx)) := by
  refine ⟨rfl, ?_, ?_⟩
  · simp only [writeLines, List.length_cons, List.length_map, normalizeVel]
    rw [show coordTransform dat dx = sortRows ((dat.map renameXY).map (shiftRow dx)) from rfl,
      (sortRows_perm _).length_eq, List.length_map, List.length_map]
  · rw [show normalizeVel c (coordTransform dat dx) = (coordTransform dat dx).map
        (fun r => { r with u := r.u / c, v := r.v / c, w := r.w / c }) from rfl,
      List.chain'_map]
    exact (sortRows_pairwise _).chain'

/-- C7 counterexample: on a one-line input file with no "viscosity" line
(so `mu == 0`), the run terminates with a ZeroDivisionError — the result
is an error, not a successfully produced set of (infinite) derived
scalars silently propagating; the claim's "rather than raising an
explicit error" is false. -/
theorem muZero_cex :
    runConvert (fun s => if s = "0" then some 0 else if s = "1" then some 1 else none)
        (fun q => q) (fun _ => "0") ["0 0 0 1 1 1"] = .error .zeroDivisionError ∧
      (runConvert (fun s => if s = "0" then some 0 else if s = "1" then some 1 else none)
        (fun q => q) (fun _ => "0") ["0 0 0 1 1 1"]).isOk = false := by
  constructor
  · decide
  · decide

/-- C7 (amended): when `mu == 0` (for example because no "viscosity" line
is found and `get_viscosity` returns 0), the computation `Re = 1. / mu` is
reached with no guard, and Python float division raises an uncaught
ZeroDivisionError that aborts the whole run — before `Re_lambda` is ever
computed and before any output is written — rather than silently
propagating infinite derived scalars. -/
theorem muZero_raises (parse : String → Option ℚ) (sqrtFn : ℚ → ℚ)
    (fmt : ℚ → String) (lines : List String) (dat : List Row)
    (hload : loadTable parse (lines.drop (getSkiprowsNum lines)) = .ok dat)
    (hmu : getViscosity parse lines = .ok 0) :
    runConvert parse sqrtFn fmt lines = .error .zeroDivisionError := by
  unfold runConvert
  rw [hload, hmu]
  rfl

/-- Witness for C7's amended theorem at the same concrete input file. -/
theorem muZero_raises_witness :
    loadTable (fun s => if s = "0" then some 0 else if s = "1" then some 1 else none)
        (["0 0 0 1 1 1"].drop (getSkiprowsNum ["0 0 0 1 1 1"])) =
      .ok [⟨0, 0, 0, 1, 1, 1⟩] ∧
    getViscosity (fun s => if s = "0" then some 0 else if s = "1" then some 1 else none)
        ["0 0 0 1 1 1"] = .ok 0 ∧
    runConvert (fun s => if s = "0" then some 0 else if s = "1" then some 1 else none)
        (fun q => q + 1) (fun _ => "1") ["0 0 0 1 1 1"] = .error .zeroDivisionError :=
  ⟨by decide, by decide,
    muZero_raises (fun s => if s = "0" then some 0 else if s = "1" then some 1 else none)
      (fun q => q + 1) (fun _ => "1") ["0 0 0 1 1 1"] [⟨0, 0, 0, 1, 1, 1⟩]
      (by decide) (by decide)⟩
